import Mathlib

/-!
Verification of the PSDL language front-end and temporal operator library.

Shallow embedding of:
* `src/psdl/core/parser.py` — window / trend / logic expression parsing
  (the regular expressions WINDOW_PATTERN, TREND_PATTERN,
  LOGIC_TERM_PATTERN, LOGIC_OPERATOR_PATTERN and the methods
  _parse_window, _parse_trend_expr, _parse_logic_expr);
* `reference/python/operators.py` — DataPoint, TemporalOperators
  (filter_by_window, last, first, delta, slope, sma, ema, min_val,
  max_val, count, std, percentile), the OPERATORS registry and
  apply_operator.

Modelling conventions:
* Python floats and datetimes are modelled as exact rationals (values and
  timestamps in seconds); float literals such as 1e-10 are the decimal
  rationals they denote.
* Python strings are lists of characters; the character classes of the
  regular expressions are modelled on their ASCII meaning, which covers
  every expression the language documents.
* Python None results are Option.none; raised PSDLParseError / ValueError
  are Except.error values carrying a structured error.
-/

namespace PSDL

/-! ## Character classes (ASCII semantics of the regex classes) -/

/-- Models the regex class backslash-w: letters, digits and underscore. -/
def isWordChar (c : Char) : Bool :=
  c.isAlpha || c.isDigit || c = '_'

/-- Models the regex class backslash-s on ASCII input. -/
def isSpaceChar (c : Char) : Bool :=
  c = ' ' || c = '\t' || c = '\n' || c = '\r' || c = '\x0b' || c = '\x0c'

/-- Models the regex class backslash-d. -/
def isDigitChar (c : Char) : Bool :=
  c.isDigit

/-- Unit characters accepted by WINDOW_PATTERN: (s|m|h|d). -/
def isUnitChar (c : Char) : Bool :=
  c = 's' || c = 'm' || c = 'h' || c = 'd'

/-- Comparator characters of TREND_PATTERN group 4, the class [<>=!]. -/
def isCmpChar (c : Char) : Bool :=
  c = '<' || c = '>' || c = '=' || c = '!'

def dropSpaces (s : List Char) : List Char :=
  s.dropWhile isSpaceChar

/-- Models Python str.strip(): whitespace removed from both ends. -/
def strip (s : List Char) : List Char :=
  ((s.dropWhile isSpaceChar).reverse.dropWhile isSpaceChar).reverse

/-- Models int() on a nonempty string of decimal digits. -/
def natOfDigits (ds : List Char) : Nat :=
  ds.foldl (fun n c => 10 * n + (c.toNat - 48)) 0

/-! ## Data model -/

/-- Structured stand-in for the PSDLParseError exception messages raised by
the parser (invalidWindow for "Invalid window specification", invalidTrend
for "Invalid trend expression"). -/
inductive PSDLError where
  | invalidWindow (s : List Char)
  | invalidTrend (s : List Char)
deriving DecidableEq, Repr

instance {ε α : Type} [DecidableEq ε] [DecidableEq α] :
    DecidableEq (Except ε α) := fun a b =>
  match a, b with
  | .ok x, .ok y =>
      if h : x = y then isTrue (congrArg Except.ok h)
      else isFalse (fun hh => h (Except.ok.inj hh))
  | .ok _, .error _ => isFalse (fun hh => Except.noConfusion hh)
  | .error _, .ok _ => isFalse (fun hh => Except.noConfusion hh)
  | .error x, .error y =>
      if h : x = y then isTrue (congrArg Except.error h)
      else isFalse (fun hh => h (Except.error.inj hh))

/-- WindowSpec from ir: integer magnitude plus unit character, as built by
PSDLParser._parse_window from the two regex groups. -/
structure WindowSpec where
  value : Nat
  unit : Char
deriving DecidableEq, Repr

/-- TrendExpr from ir, with the fields _parse_trend_expr fills in: name,
operator tag, signal name, optional window, optional comparator and
threshold, and the raw (stripped) expression text. -/
structure TrendExpr where
  name : List Char
  operator : List Char
  signal : List Char
  window : Option WindowSpec
  comparator : Option (List Char)
  threshold : Option ℚ
  rawExpr : List Char
deriving DecidableEq, Repr

/-- DataPoint from operators.py: timestamp (seconds, exact) and value. -/
structure DataPoint where
  timestamp : ℚ
  value : ℚ
deriving DecidableEq, Repr

/-! ## PSDLParser._parse_window

WINDOW_PATTERN is anchored on both sides: a nonempty run of digits followed
by exactly one unit character. The digit run is greedy and no unit
character is a digit, so the regex match is exactly: take the maximal digit
prefix, and the remainder must be a single unit character. -/

def parseWindow (s : List Char) : Except PSDLError WindowSpec :=
  match s.dropWhile isDigitChar with
  | [u] =>
      if s.takeWhile isDigitChar ≠ [] ∧ isUnitChar u then
        .ok ⟨natOfDigits (s.takeWhile isDigitChar), u⟩
      else .error (.invalidWindow s)
  | _ => .error (.invalidWindow s)

/-! ## PSDLParser._parse_trend_expr

TREND_PATTERN:
  anchored OP then spaces then ( then spaces then word-run (signal), an
  optional group: spaces , spaces digits unit-char, then spaces ) spaces
  comparator-run then spaces then -?digits(.digits*)? then end.
The simple pattern used as the fallback is the same without the comparator
and threshold part, anchored directly after the closing parenthesis.

Backtracking analysis justifying a deterministic embedding:
* the only operator name that is a prefix of another is std / stddev; when
  the input starts with stddev the std alternative always fails at the
  following literal ( (the next input character is d), so the regex ends up
  taking the longer name — modelled by listing stddev before std;
* every other greedy sub-match (word run, digit run, space runs, comparator
  run, digits of the threshold) is followed by a pattern element that can
  never consume a character of the same class, so the maximal munch is the
  unique possibility;
* when a comma follows the signal, the optional window group must succeed,
  since on skipping the group the following spaces-then-) can never consume
  the comma. -/

def opNames : List (List Char) :=
  [ "delta".toList, "slope".toList, "ema".toList, "sma".toList,
    "min".toList, "max".toList, "count".toList, "last".toList,
    "first".toList, "stddev".toList, "std".toList, "percentile".toList ]

def parseOpName (s : List Char) : Option (List Char × List Char) :=
  (opNames.find? (fun op => op.isPrefixOf s)).map
    (fun op => (op, s.drop op.length))

/-- Parses, after the operator name, the part spaces ( spaces signal
optional-window spaces ) of both trend patterns; returns the signal, the
raw window token when present, and the rest of the input after the closing
parenthesis. -/
def parseAfterOp (s : List Char) : Option (List Char × Option (List Char) × List Char) :=
  match dropSpaces s with
  | '(' :: s2 =>
    let s3 := dropSpaces s2
    let sig := s3.takeWhile isWordChar
    if sig = [] then none else
    match dropSpaces (s3.dropWhile isWordChar) with
    | ',' :: s6 =>
      let s7 := dropSpaces s6
      let ds := s7.takeWhile isDigitChar
      if ds = [] then none else
      match s7.dropWhile isDigitChar with
      | u :: s8 =>
        if isUnitChar u then
          match dropSpaces s8 with
          | ')' :: s10 => some (sig, some (ds ++ [u]), s10)
          | _ => none
        else none
      | [] => none
    | ')' :: s6 => some (sig, none, s6)
    | _ => none
  | _ => none

/-- Matches the threshold pattern -?digits(.digits*)? at the front of the
input; returns the matched characters and the rest. -/
def parseNumeral (s : List Char) : Option (List Char × List Char) :=
  let neg : Bool := match s with | '-' :: _ => true | _ => false
  let s1 := match s with | '-' :: t => t | _ => s
  let ip := s1.takeWhile isDigitChar
  if ip = [] then none else
  match s1.dropWhile isDigitChar with
  | '.' :: s3 =>
      some ((if neg then ['-'] else []) ++ ip ++ '.' :: s3.takeWhile isDigitChar,
            s3.dropWhile isDigitChar)
  | s2 => some ((if neg then ['-'] else []) ++ ip, s2)

/-- Character-level decomposition of a string matched by
-?digits(.digits*)?: sign, integer part, fraction part and fraction
length. -/
def numParts (s : List Char) : Bool × Nat × Nat × Nat :=
  let neg : Bool := match s with | '-' :: _ => true | _ => false
  let s1 := match s with | '-' :: t => t | _ => s
  let ip := s1.takeWhile isDigitChar
  let fp := match s1.dropWhile isDigitChar with
    | '.' :: t => t.takeWhile isDigitChar
    | _ => []
  (neg, natOfDigits ip, natOfDigits fp, fp.length)

/-- Models float() on a string matched by -?digits(.digits*)?, read as the
exact decimal rational. -/
def ratOfNumStr (s : List Char) : ℚ :=
  let q := numParts s
  let v : ℚ := (q.2.1 : ℚ) + (q.2.2.1 : ℚ) / (10 ^ q.2.2.2 : ℚ)
  if q.1 then -v else v

/-- Capture groups of a successful TREND_PATTERN (or simple pattern) match. -/
structure TrendMatch where
  op : List Char
  signal : List Char
  windowStr : Option (List Char)
  comparator : Option (List Char)
  thresholdStr : Option (List Char)
deriving DecidableEq, Repr

/-- Full TREND_PATTERN match (comparator and threshold required); the
three components of a parseAfterOp result are the signal, the optional
window token and the rest of the input. -/
def parseTrendFull (s : List Char) : Option TrendMatch :=
  match parseOpName s with
  | none => none
  | some pr =>
    match parseAfterOp pr.2 with
    | none => none
    | some t =>
      if (dropSpaces t.2.2).takeWhile isCmpChar = [] then none
      else
        match parseNumeral (dropSpaces ((dropSpaces t.2.2).dropWhile isCmpChar)) with
        | none => none
        | some nr =>
            if nr.2 = [] then
              some ⟨pr.1, t.1, t.2.1,
                some ((dropSpaces t.2.2).takeWhile isCmpChar), some nr.1⟩
            else none

/-- Simple pattern match (no comparator part, anchored directly after the
closing parenthesis). -/
def parseTrendSimple (s : List Char) : Option TrendMatch :=
  match parseOpName s with
  | none => none
  | some pr =>
    match parseAfterOp pr.2 with
    | none => none
    | some t =>
        if t.2.2 = [] then some ⟨pr.1, t.1, t.2.1, none, none⟩ else none

/-- Models the call self._parse_window(window_str) if window_str else None
inside _parse_trend_expr, propagating a parse error. -/
def windowOpt : Option (List Char) → Except PSDLError (Option WindowSpec)
  | none => .ok none
  | some ws => (parseWindow ws).map some

/-- PSDLParser._parse_trend_expr: strip the expression, try TREND_PATTERN,
fall back to the simple pattern, otherwise raise; a window parse error
propagates as the raised exception does in the code. -/
def parseTrendExpr (name expr : List Char) : Except PSDLError TrendExpr :=
  match parseTrendFull (strip expr) with
  | some m =>
    match windowOpt m.windowStr with
    | .error err => .error err
    | .ok w => .ok ⟨name, m.op, m.signal, w, m.comparator,
        m.thresholdStr.map ratOfNumStr, strip expr⟩
  | none =>
    match parseTrendSimple (strip expr) with
    | some m =>
      match windowOpt m.windowStr with
      | .error err => .error err
      | .ok w => .ok ⟨name, m.op, m.signal, w, none, none, strip expr⟩
    | none => .error (.invalidTrend (strip expr))

/-! ## PSDLParser._parse_logic_expr

LOGIC_OPERATOR_PATTERN matches AND / OR / NOT case-insensitively between
word boundaries: a match is exactly a maximal word-character run equal (up
to case) to one of the keywords, since any adjacent word character defeats
the boundary. The method collects those matches in order and upper-cases
them; it then replaces each keyword match by a single space — which keeps
every other maximal word run intact — and collects the remaining maximal
word runs as the terms. Hence both lists are obtained from the list of
maximal word runs of the input. -/

/-- Splits a string into its maximal runs of word characters; acc is the
reversed run currently being read. -/
def runsAux (acc : List Char) : List Char → List (List Char)
  | [] => if acc = [] then [] else [acc.reverse]
  | c :: cs =>
    if isWordChar c then runsAux (c :: acc) cs
    else if acc = [] then runsAux [] cs
    else acc.reverse :: runsAux [] cs

def wordRuns (s : List Char) : List (List Char) :=
  runsAux [] s

def isKeywordRun (w : List Char) : Bool :=
  let u := w.map Char.toUpper
  u = "AND".toList || u = "OR".toList || u = "NOT".toList

/-- PSDLParser._parse_logic_expr: the (terms, operators) pair extracted
from a logic formula. -/
def parseLogicParts (expr : List Char) : List (List Char) × List (List Char) :=
  let runs := wordRuns expr
  (runs.filter (fun r => !isKeywordRun r),
   (runs.filter isKeywordRun).map (List.map Char.toUpper))

def isParenChar (c : Char) : Bool :=
  c = '(' || c = ')'

/-- Removes every parenthesis character from a formula. -/
def removeParens (s : List Char) : List Char :=
  s.filter (fun c => !isParenChar c)

/-- State automaton detecting a word character separated from a later word
character only by parentheses (state 0: neutral, 1: just read word
characters, 2: inside a parenthesis run preceded by a word character). -/
def mergeAux (st : Nat) : List Char → Bool
  | [] => false
  | c :: cs =>
    if isWordChar c then (if st = 2 then true else mergeAux 1 cs)
    else if isParenChar c then mergeAux (if st = 0 then 0 else 2) cs
    else mergeAux 0 cs

/-- True when the formula contains two word characters separated only by
parentheses, so that deleting the parentheses would merge two word runs. -/
def hasParenMerge (s : List Char) : Bool :=
  mergeAux 0 s

/-! ## Temporal operator library (reference/python/operators.py) -/

/-- TemporalOperators.filter_by_window: keep the points whose timestamp
lies in the closed interval from referenceTime minus windowSeconds to
referenceTime, in input order. -/
def filter_by_window (data : List DataPoint) (windowSeconds : ℚ)
    (referenceTime : ℚ) : List DataPoint :=
  data.filter (fun dp =>
    decide (referenceTime - windowSeconds ≤ dp.timestamp ∧
            dp.timestamp ≤ referenceTime))

/-- TemporalOperators.last: value of the chronologically last point. -/
def lastOp (data : List DataPoint) : Option ℚ :=
  data.getLast?.map DataPoint.value

/-- TemporalOperators.first: value of the first point inside the window. -/
def firstOp (data : List DataPoint) (w t : ℚ) : Option ℚ :=
  (filter_by_window data w t).head?.map DataPoint.value

/-- TemporalOperators.delta: last minus first in-window value; None below
two points. -/
def delta (data : List DataPoint) (w t : ℚ) : Option ℚ :=
  let f := filter_by_window data w t
  if f.length < 2 then none
  else
    match f.head?, f.getLast? with
    | some a, some b => some (b.value - a.value)
    | _, _ => none

/-- Elapsed seconds of each in-window point since the first one (the list x
of TemporalOperators.slope). -/
def elapsed (f : List DataPoint) : List ℚ :=
  match f with
  | [] => []
  | p0 :: _ => f.map (fun dp => dp.timestamp - p0.timestamp)

/-- Denominator n * sum x2 - (sum x)^2 of the least-squares slope. -/
def slopeDen (f : List DataPoint) : ℚ :=
  let x := elapsed f
  (f.length : ℚ) * (x.map (fun a => a * a)).sum - x.sum * x.sum

/-- Numerator n * sum xy - sum x * sum y of the least-squares slope. -/
def slopeNum (f : List DataPoint) : ℚ :=
  let x := elapsed f
  let y := f.map DataPoint.value
  (f.length : ℚ) * (((x.zip y).map (fun p => p.1 * p.2)).sum) - x.sum * y.sum

/-- TemporalOperators.slope: least-squares slope of value against elapsed
seconds; None below two points; 0.0 when the absolute denominator is below
1e-10. -/
def slope (data : List DataPoint) (w t : ℚ) : Option ℚ :=
  let f := filter_by_window data w t
  if f.length < 2 then none
  else if |slopeDen f| < (1 : ℚ) / 10 ^ 10 then some 0
  else some (slopeNum f / slopeDen f)

/-- TemporalOperators.sma: arithmetic mean of the in-window values. -/
def sma (data : List DataPoint) (w t : ℚ) : Option ℚ :=
  match filter_by_window data w t with
  | [] => none
  | f => some ((f.map DataPoint.value).sum / (f.length : ℚ))

/-- TemporalOperators.ema: seeded with the first in-window value, folded
left to right with smoothing factor 2 / (N + 1). -/
def ema (data : List DataPoint) (w t : ℚ) : Option ℚ :=
  match filter_by_window data w t with
  | [] => none
  | [dp] => some dp.value
  | dp :: rest =>
    let alpha : ℚ := 2 / (((dp :: rest).length : ℚ) + 1)
    some (rest.foldl (fun e p => alpha * p.value + (1 - alpha) * e) dp.value)

/-- TemporalOperators.min_val. -/
def min_val (data : List DataPoint) (w t : ℚ) : Option ℚ :=
  match (filter_by_window data w t).map DataPoint.value with
  | [] => none
  | v :: vs => some (vs.foldl min v)

/-- TemporalOperators.max_val. -/
def max_val (data : List DataPoint) (w t : ℚ) : Option ℚ :=
  match (filter_by_window data w t).map DataPoint.value with
  | [] => none
  | v :: vs => some (vs.foldl max v)

/-- TemporalOperators.count: number of in-window points, never None. -/
def count (data : List DataPoint) (w t : ℚ) : Nat :=
  (filter_by_window data w t).length

/-- Sample variance with divisor N - 1, the quantity whose square root
TemporalOperators.std returns. The final math.sqrt of the code is not
representable exactly in the rationals; no claim under verification
depends on the numeric value of std, only on its definedness and on which
registry entry is dispatched, and the square root is injective on
nonnegative inputs, so this model preserves both. -/
def std (data : List DataPoint) (w t : ℚ) : Option ℚ :=
  let f := filter_by_window data w t
  if f.length < 2 then none
  else
    let n : ℚ := f.length
    let mean := (f.map DataPoint.value).sum / n
    some (((f.map (fun dp => (dp.value - mean) ^ 2)).sum) / (n - 1))

def insertSorted (x : ℚ) : List ℚ → List ℚ
  | [] => [x]
  | y :: ys => if x ≤ y then x :: y :: ys else y :: insertSorted x ys

/-- Models Python sorted() on a list of values (ascending). -/
def sortValues : List ℚ → List ℚ
  | [] => []
  | x :: xs => insertSorted x (sortValues xs)

/-- Models Python list indexing values[i] with an integer index, including
the negative wrap-around; an out-of-range index (an IndexError in the
code, never reached for a percentile between 0 and 100) yields none. -/
def pyGet (l : List ℚ) (i : ℤ) : Option ℚ :=
  if 0 ≤ i then l.get? i.toNat
  else if (-i).toNat ≤ l.length then l.get? (l.length - (-i).toNat)
  else none

/-- TemporalOperators.percentile: linear interpolation over the sorted
in-window values at rank k = (p / 100) * (n - 1). -/
def percentile (data : List DataPoint) (w p t : ℚ) : Option ℚ :=
  match (filter_by_window data w t).map DataPoint.value with
  | [] => none
  | vs =>
    let values := sortValues vs
    let n := values.length
    if n = 1 then values.get? 0
    else
      let k : ℚ := (p / 100) * ((n : ℚ) - 1)
      let fl : ℤ := ⌊k⌋
      let ce : ℤ := ⌈k⌉
      if fl = ce then pyGet values fl
      else
        match pyGet values fl, pyGet values ce with
        | some vf, some vc => some (vf * ((ce : ℚ) - k) + vc * (k - (fl : ℚ)))
        | _, _ => none

/-! ## Operator registry and apply_operator -/

/-- Structured stand-in for the ValueError messages raised by
apply_operator. -/
inductive OpError where
  | unknownOperator (op : List Char)
  | missingWindow (op : List Char)
deriving DecidableEq, Repr

/-- Keys of the OPERATORS registry dictionary. Note that neither stddev
nor percentile is registered. -/
def registryOps : List (List Char) :=
  [ "delta".toList, "slope".toList, "ema".toList, "sma".toList,
    "min".toList, "max".toList, "count".toList, "last".toList,
    "first".toList, "std".toList ]

/-- Windowed registry operators: every registry key except last. -/
def windowedRegistryOps : List (List Char) :=
  [ "delta".toList, "slope".toList, "ema".toList, "sma".toList,
    "min".toList, "max".toList, "count".toList,
    "first".toList, "std".toList ]

/-- Dispatch of a windowed registry operator to its implementation. -/
def dispatchWindowed (op : List Char) (data : List DataPoint) (w t : ℚ) :
    Option ℚ :=
  if op = "delta".toList then delta data w t
  else if op = "slope".toList then slope data w t
  else if op = "ema".toList then ema data w t
  else if op = "sma".toList then sma data w t
  else if op = "min".toList then min_val data w t
  else if op = "max".toList then max_val data w t
  else if op = "count".toList then some (count data w t : ℚ)
  else if op = "first".toList then firstOp data w t
  else std data w t

/-- apply_operator from operators.py: unknown names raise, last ignores
the window, every other registered operator raises when no window is
supplied and is otherwise applied to the window and reference time. -/
def apply_operator (op : List Char) (data : List DataPoint)
    (windowSeconds : Option ℚ) (referenceTime : ℚ) :
    Except OpError (Option ℚ) :=
  if op ∈ registryOps then
    if op = "last".toList then .ok (lastOp data)
    else
      match windowSeconds with
      | none => .error (.missingWindow op)
      | some w => .ok (dispatchWindowed op data w referenceTime)
  else .error (.unknownOperator op)

/-- Modelled from the spec: the Evaluation Engine (the PSDLEvaluator of
execution/batch.py, whose source is not part of the sources examined here)
resolves the operator tag of a parsed trend before dispatching it, and the
data-model section of the specification lists the operator tags as
"delta, slope, ema, sma, min, max, count, last, first, std, stddev to std,
percentile", i.e. the tag stddev is normalized to std before dispatch. -/
def evalTrendOperator (tr : TrendExpr) (data : List DataPoint)
    (windowSeconds : Option ℚ) (referenceTime : ℚ) :
    Except OpError (Option ℚ) :=
  let tag := if tr.operator = "stddev".toList then "std".toList else tr.operator
  apply_operator tag data windowSeconds referenceTime

/-! ## Specification-side definitions used for comparison -/

/-- Fold of the ema recurrence stated by the spec: e0 = v0 and
e(i) = alpha * v(i) + (1 - alpha) * e(i-1). -/
def emaFold (alpha : ℚ) (e : ℚ) : List ℚ → ℚ
  | [] => e
  | v :: vs => emaFold alpha (alpha * v + (1 - alpha) * e) vs

/-! ## Concrete data sets used in closed statements -/

def dataRising : List DataPoint :=
  [⟨0, 1⟩, ⟨1, 2⟩]

def dataFour : List DataPoint :=
  [⟨1, 1⟩, ⟨2, 2⟩, ⟨3, 3⟩, ⟨4, 4⟩]

def dataThree : List DataPoint :=
  [⟨1, 1⟩, ⟨2, 2⟩, ⟨3, 3⟩]

/-! ## Shared helper lemmas -/

theorem count_filter_eq {α : Type} [DecidableEq α] (a : α) (p : α → Bool)
    (l : List α) :
    (l.filter p).count a = if p a then l.count a else 0 := by
  induction l with
  | nil => simp
  | cons b bs ih =>
      rcases Decidable.em (a = b) with rfl | hab
      · by_cases hb : p a <;> simp [List.filter_cons, hb, List.count_cons, ih]
      · by_cases hb : p b <;> simp [List.filter_cons, hb, List.count_cons, hab, ih]

theorem filter_by_window_nil (W T : ℚ) : filter_by_window [] W T = [] := rfl

theorem filter_by_window_cons_pos (dp : DataPoint) (l : List DataPoint) (W T : ℚ)
    (h : T - W ≤ dp.timestamp ∧ dp.timestamp ≤ T) :
    filter_by_window (dp :: l) W T = dp :: filter_by_window l W T := by
  simp only [filter_by_window, List.filter_cons, decide_eq_true_eq]
  rw [if_pos h]

theorem filter_by_window_cons_neg (dp : DataPoint) (l : List DataPoint) (W T : ℚ)
    (h : ¬(T - W ≤ dp.timestamp ∧ dp.timestamp ≤ T)) :
    filter_by_window (dp :: l) W T = filter_by_window l W T := by
  simp only [filter_by_window, List.filter_cons, decide_eq_true_eq]
  rw [if_neg h]

theorem insertSorted_le (x y : ℚ) (ys : List ℚ) (h : x ≤ y) :
    insertSorted x (y :: ys) = x :: y :: ys := by
  simp [insertSorted, h]

theorem insertSorted_gt (x y : ℚ) (ys : List ℚ) (h : ¬x ≤ y) :
    insertSorted x (y :: ys) = y :: insertSorted x ys := by
  simp [insertSorted, h]

theorem emaFold_eq_foldl (a e : ℚ) (l : List DataPoint) :
    l.foldl (fun acc p => a * p.value + (1 - a) * acc) e =
      emaFold a e (l.map DataPoint.value) := by
  induction l generalizing e with
  | nil => simp [emaFold]
  | cons p ps ih => simp [emaFold, ih]

/-! ## Claim theorems -/

/-- C3: filter_by_window returns exactly the data points whose timestamp t
satisfies T - W ≤ t ≤ T (both interval ends inclusive), in the input
order (the result is a sublist of the input) and with the multiplicity of
every qualifying point preserved. -/
theorem c3_filter_window_closed_interval (data : List DataPoint) (W T : ℚ) :
    (filter_by_window data W T).Sublist data ∧
    (∀ dp, dp ∈ filter_by_window data W T ↔
      dp ∈ data ∧ T - W ≤ dp.timestamp ∧ dp.timestamp ≤ T) ∧
    (∀ dp, (filter_by_window data W T).count dp =
      if T - W ≤ dp.timestamp ∧ dp.timestamp ≤ T then data.count dp else 0) := by
  refine ⟨List.filter_sublist data, fun dp => ?_, fun dp => ?_⟩
  · simp only [filter_by_window, List.mem_filter, decide_eq_true_eq]
  · rw [filter_by_window, count_filter_eq]
    simp only [decide_eq_true_eq]

/-- C4: ema yields none on an empty window, the value itself on a
one-point window, and otherwise the left-to-right fold of the recurrence
seeded with the first in-window value using smoothing factor 2 / (N + 1)
for N in-window points. -/
theorem c4_ema_fold (data : List DataPoint) (W T : ℚ) :
    (filter_by_window data W T = [] → ema data W T = none) ∧
    (∀ dp, filter_by_window data W T = [dp] → ema data W T = some dp.value) ∧
    (∀ v vs, (filter_by_window data W T).map DataPoint.value = v :: vs →
      ema data W T = some (emaFold (2 / (((v :: vs).length : ℚ) + 1)) v vs)) := by
  refine ⟨fun h => ?_, fun dp h => ?_, fun v vs h => ?_⟩
  · simp [ema, h]
  · simp [ema, h]
  · cases hf : filter_by_window data W T with
    | nil => rw [hf] at h; simp at h
    | cons dp rest =>
      rw [hf] at h
      simp only [List.map_cons, List.cons.injEq] at h
      obtain ⟨hv, hvs⟩ := h
      cases rest with
      | nil =>
        subst hv
        simp only [List.map_nil] at hvs
        subst hvs
        simp [ema, hf, emaFold]
      | cons q qs =>
        subst hv
        subst hvs
        simp only [ema, hf]
        rw [emaFold_eq_foldl]
        congr 2
        simp

/-- C7: a trend expression with the operator tag stddev parses
successfully, and the evaluation engine (modelled from the spec, which
normalizes the tag stddev to std) dispatches it to the same operation as
std, yielding the std result instead of an unknown-operator failure. -/
theorem c7_stddev_normalized_to_std :
    (parseTrendExpr "t".toList "stddev(HR, 6h)".toList =
      .ok ⟨"t".toList, "stddev".toList, "HR".toList, some ⟨6, 'h'⟩, none, none,
        "stddev(HR, 6h)".toList⟩) ∧
    (∀ tr : TrendExpr, tr.operator = "stddev".toList →
      ∀ (data : List DataPoint) (w : Option ℚ) (T : ℚ),
        evalTrendOperator tr data w T = apply_operator "std".toList data w T) ∧
    (∀ tr : TrendExpr, tr.operator = "stddev".toList →
      ∀ (data : List DataPoint) (w T : ℚ),
        evalTrendOperator tr data (some w) T = .ok (std data w T)) := by
  refine ⟨by decide, fun tr h data w T => ?_, fun tr h data w T => ?_⟩
  · simp [evalTrendOperator, h]
  · simp [evalTrendOperator, h]
    rfl

/-- Witness for C7 at a concrete trend, data set and window. -/
theorem c7_stddev_normalized_to_std_witness :
    evalTrendOperator
      ⟨"t".toList, "stddev".toList, "HR".toList, some ⟨6, 'h'⟩, none, none,
        "stddev(HR, 6h)".toList⟩ [] (some 1) 0 = .ok (std [] 1 0) :=
  c7_stddev_normalized_to_std.2.2 _ rfl [] 1 0

/-- C8 counterexample: the window token 0h is accepted by _parse_window,
producing a WindowSpec of magnitude 0, contradicting the claim that a
zero-magnitude token is never accepted. -/
theorem c8_counterexample : parseWindow "0h".toList = .ok ⟨0, 'h'⟩ := by decide

/-- C8 amended: every WindowSpec produced by _parse_window has a unit in
(s, m, h, d) and a nonnegative integer magnitude; a missing integer, a
negative integer or a bad unit is a syntax error, but a zero magnitude is
accepted. -/
theorem c8_amended :
    (∀ s w, parseWindow s = .ok w → isUnitChar w.unit = true) ∧
    parseWindow "h".toList = .error (.invalidWindow "h".toList) ∧
    parseWindow "-3h".toList = .error (.invalidWindow "-3h".toList) ∧
    parseWindow "3x".toList = .error (.invalidWindow "3x".toList) ∧
    parseWindow "0h".toList = .ok ⟨0, 'h'⟩ := by
  refine ⟨fun s w h => ?_, by decide, by decide, by decide, by decide⟩
  unfold parseWindow at h
  split at h
  · split at h
    · rename_i hcond
      cases h
      exact hcond.2
    · cases h
  · cases h

/-- Witness for C8 at the concrete token 6h. -/
theorem c8_amended_witness : isUnitChar (WindowSpec.mk 6 'h').unit = true :=
  c8_amended.1 "6h".toList ⟨6, 'h'⟩ (by decide)

/-- C2 counterexample: a percentile trend expression without its
percentile argument is accepted by the generic two-shape grammar,
contradicting the claim that it fails at parse time. -/
theorem c2_counterexample :
    parseTrendExpr "t".toList "percentile(HR, 6h)".toList =
      .ok ⟨"t".toList, "percentile".toList, "HR".toList, some ⟨6, 'h'⟩, none, none,
        "percentile(HR, 6h)".toList⟩ := by decide

/-- C2 amended: percentile is not special-cased by the parser: the generic
two-shape grammar accepts a percentile expression without a percentile
argument, a third positional argument is a syntax error because no grammar
shape carries it, and applying percentile through the operator registry
fails as an unknown operator. -/
theorem c2_amended :
    (parseTrendExpr "p95".toList "percentile(HR, 6h)".toList =
      .ok ⟨"p95".toList, "percentile".toList, "HR".toList, some ⟨6, 'h'⟩, none,
        none, "percentile(HR, 6h)".toList⟩) ∧
    (parseTrendExpr "p95".toList "percentile(HR, 6h, 95)".toList =
      .error (.invalidTrend "percentile(HR, 6h, 95)".toList)) ∧
    (∀ (data : List DataPoint) (w : Option ℚ) (T : ℚ),
      apply_operator "percentile".toList data w T =
        .error (.unknownOperator "percentile".toList)) := by
  refine ⟨by decide, by decide, fun data w T => rfl⟩

/-- Witness for C2 at a concrete registry application. -/
theorem c2_amended_witness :
    apply_operator "percentile".toList [] (some 1) 0 =
      .error (.unknownOperator "percentile".toList) :=
  c2_amended.2.2 [] (some 1) 0

/-- C10 counterexample: removing the parentheses of the logic formula
NOT(A) merges the keyword and the term into one word run, so term and
operator extraction differs between the formula and its parenthesis-free
form, contradicting the claim for every formula. -/
theorem c10_counterexample :
    parseLogicParts (removeParens "NOT(A)".toList) ≠
      parseLogicParts "NOT(A)".toList := by decide

/-- C1 counterexample: trend expressions using windowed operators without
a window token parse successfully (window none) instead of failing with a
syntax error, both in the comparison shape and in the bare shape. -/
theorem c1_counterexample :
    parseTrendExpr "t".toList "delta(Cr) > 0.3".toList =
      .ok ⟨"t".toList, "delta".toList, "Cr".toList, none, some ['>'],
        some (3 / 10), "delta(Cr) > 0.3".toList⟩ ∧
    parseTrendExpr "t".toList "sma(HR)".toList =
      .ok ⟨"t".toList, "sma".toList, "HR".toList, none, none, none,
        "sma(HR)".toList⟩ := by
  refine ⟨?_, by decide⟩
  have h0 : strip "delta(Cr) > 0.3".toList = "delta(Cr) > 0.3".toList := by decide
  have h1 : parseTrendFull "delta(Cr) > 0.3".toList =
      some ⟨"delta".toList, "Cr".toList, none, some ['>'], some ['0', '.', '3']⟩ := by
    decide
  have h2 : ratOfNumStr ['0', '.', '3'] = 3 / 10 := by
    have hp : numParts ['0', '.', '3'] = (false, 0, 3, 1) := by decide
    rw [ratOfNumStr, hp]
    norm_num
  simp only [parseTrendExpr, h0, h1, windowOpt, Option.map_some, Option.map]
  rw [h2]

/-- C1 amended: a windowed operator written without a window token parses
successfully with window none; the window requirement is enforced only at
operator application time, where every registry operator except last
fails with a missing-window error on an absent window, while last
succeeds on the whole series. -/
theorem c1_amended :
    (parseTrendExpr "t2".toList "sma(HR)".toList =
      .ok ⟨"t2".toList, "sma".toList, "HR".toList, none, none, none,
        "sma(HR)".toList⟩) ∧
    (∀ op, op ∈ windowedRegistryOps →
      ∀ (data : List DataPoint) (T : ℚ),
        apply_operator op data none T = .error (.missingWindow op)) ∧
    (∀ (data : List DataPoint) (T : ℚ),
      apply_operator "last".toList data none T = .ok (lastOp data)) := by
  refine ⟨by decide, fun op hop data T => ?_, fun data T => rfl⟩
  fin_cases hop <;> rfl

/-- Witness for C1 at the operator delta with an absent window. -/
theorem c1_amended_witness :
    apply_operator "delta".toList [] none 0 =
      .error (.missingWindow "delta".toList) :=
  c1_amended.2.1 "delta".toList (by decide) [] 0

/-- C5: slope returns none below two in-window points, returns 0 when the
in-window timestamps are all equal (degenerate denominator), and otherwise
returns the ordinary-least-squares slope numerator over denominator. -/
theorem c5_slope_ols (data : List DataPoint) (W T : ℚ) :
    ((filter_by_window data W T).length < 2 → slope data W T = none) ∧
    (∀ p0 rest, filter_by_window data W T = p0 :: rest → rest ≠ [] →
      (∀ dp ∈ rest, dp.timestamp = p0.timestamp) → slope data W T = some 0) ∧
    (∀ p0 rest, filter_by_window data W T = p0 :: rest → rest ≠ [] →
      (1 : ℚ) / 10 ^ 10 ≤ |slopeDen (p0 :: rest)| →
      slope data W T = some (slopeNum (p0 :: rest) / slopeDen (p0 :: rest))) := by
  refine ⟨fun h => ?_, fun p0 rest hf hne hts => ?_, fun p0 rest hf hne hden => ?_⟩
  · simp only [slope]
    rw [if_pos h]
  · have hlen : ¬(p0 :: rest).length < 2 := by
      cases rest with
      | nil => exact absurd rfl hne
      | cons q qs => simp only [List.length_cons]; omega
    have hzero : ∀ a ∈ elapsed (p0 :: rest), a = 0 := by
      intro a ha
      simp only [elapsed, List.mem_map] at ha
      obtain ⟨dp, hdp, rfl⟩ := ha
      rcases List.mem_cons.mp hdp with rfl | hdp2
      · exact sub_self _
      · rw [hts dp hdp2]; exact sub_self _
    have hsum : (elapsed (p0 :: rest)).sum = 0 := List.sum_eq_zero hzero
    have hsq : ((elapsed (p0 :: rest)).map (fun a => a * a)).sum = 0 := by
      refine List.sum_eq_zero fun a ha => ?_
      simp only [List.mem_map] at ha
      obtain ⟨b, hb, rfl⟩ := ha
      rw [hzero b hb]; ring
    have hden0 : slopeDen (p0 :: rest) = 0 := by
      simp only [slopeDen]
      rw [hsum, hsq]; ring
    simp only [slope, hf]
    rw [if_neg hlen, if_pos]
    rw [hden0]
    norm_num
  · have hlen : ¬(p0 :: rest).length < 2 := by
      cases rest with
      | nil => exact absurd rfl hne
      | cons q qs => simp only [List.length_cons]; omega
    simp only [slope, hf]
    rw [if_neg hlen, if_neg (not_lt.mpr hden)]

/-- Witness for C5 at two rising points: the nondegenerate branch applies. -/
theorem c5_slope_ols_witness :
    slope dataRising 10 1 = some (slopeNum dataRising / slopeDen dataRising) := by
  have hf : filter_by_window dataRising 10 1 = dataRising := by
    norm_num [dataRising, filter_by_window_cons_pos, filter_by_window_nil]
  have hden : (1 : ℚ) / 10 ^ 10 ≤ |slopeDen dataRising| := by
    norm_num [slopeDen, dataRising, elapsed]
  exact (c5_slope_ols dataRising 10 1).2.2 ⟨0, 1⟩ [⟨1, 2⟩]
    (by rw [hf]; rfl) (by simp) (by rw [show (⟨0, 1⟩ :: [⟨1, 2⟩] : List DataPoint) = dataRising from rfl]; exact hden)

/-- Witness for C4 at two rising points: ema equals the spec fold with
smoothing factor 2 divided by 3. -/
theorem c4_ema_fold_witness :
    ema dataRising 10 1 =
      some (emaFold (2 / ((([(1 : ℚ), 2]).length : ℚ) + 1)) 1 [2]) := by
  have h : (filter_by_window dataRising 10 1).map DataPoint.value = [1, 2] := by
    have hf : filter_by_window dataRising 10 1 = dataRising := by
      norm_num [dataRising, filter_by_window_cons_pos, filter_by_window_nil]
    rw [hf]; rfl
  exact (c4_ema_fold dataRising 10 1).2.2 1 [2] h

/-- Witness for C3 at a two-point series: the closed window from -9 to 1
keeps both points in order with their multiplicities. -/
theorem c3_filter_window_closed_interval_witness :
    (filter_by_window dataRising 10 1).Sublist dataRising ∧
    ((⟨0, 1⟩ : DataPoint) ∈ filter_by_window dataRising 10 1 ↔
      (⟨0, 1⟩ : DataPoint) ∈ dataRising ∧ 1 - 10 ≤ (0 : ℚ) ∧ (0 : ℚ) ≤ 1) :=
  ⟨(c3_filter_window_closed_interval dataRising 10 1).1,
   (c3_filter_window_closed_interval dataRising 10 1).2.1 ⟨0, 1⟩⟩

/-- C6: percentile yields none on an empty window, the single value at
every percentile for a one-point window, interpolates to 5/2 at p = 50
over the four values 1, 2, 3, 4 and yields exactly 2 at p = 50 over the
three values 1, 2, 3. -/
theorem c6_percentile_interpolation :
    (∀ (data : List DataPoint) (W p T : ℚ),
      (filter_by_window data W T = [] → percentile data W p T = none) ∧
      (∀ dp, filter_by_window data W T = [dp] →
        percentile data W p T = some dp.value)) ∧
    percentile dataFour 10 50 5 = some (5 / 2) ∧
    percentile dataThree 10 50 5 = some 2 := by
  refine ⟨fun data W p T => ⟨fun h => ?_, fun dp h => ?_⟩, ?_, ?_⟩
  · simp [percentile, h]
  · simp [percentile, h, sortValues, insertSorted]
  · have hf : filter_by_window dataFour 10 5 = dataFour := by
      norm_num [dataFour, filter_by_window_cons_pos, filter_by_window_nil]
    have hm : (filter_by_window dataFour 10 5).map DataPoint.value =
        [1, 2, 3, 4] := by
      rw [hf]; rfl
    have hs : sortValues [(1 : ℚ), 2, 3, 4] = [1, 2, 3, 4] := by
      norm_num [sortValues, insertSorted]
    have hce : ⌈(3 / 2 : ℚ)⌉ = 2 := by
      rw [Int.ceil_eq_iff]
      norm_num
    simp only [percentile, hm, hs, List.length_cons, List.length_nil]
    norm_num [pyGet, hce, show Int.toNat 2 = 2 from rfl]
  · have hf : filter_by_window dataThree 10 5 = dataThree := by
      norm_num [dataThree, filter_by_window_cons_pos, filter_by_window_nil]
    have hm : (filter_by_window dataThree 10 5).map DataPoint.value =
        [1, 2, 3] := by
      rw [hf]; rfl
    have hs : sortValues [(1 : ℚ), 2, 3] = [1, 2, 3] := by
      norm_num [sortValues, insertSorted]
    simp only [percentile, hm, hs, List.length_cons, List.length_nil]
    norm_num [pyGet]

/-- Witness for C6: the empty-window and one-point cases at concrete
inputs. -/
theorem c6_percentile_interpolation_witness :
    percentile ([] : List DataPoint) 1 50 0 = none ∧
    percentile [⟨0, 7⟩] 1 50 0 = some 7 := by
  refine ⟨(c6_percentile_interpolation.1 [] 1 50 0).1 rfl,
    (c6_percentile_interpolation.1 [⟨0, 7⟩] 1 50 0).2 ⟨0, 7⟩ ?_⟩
  norm_num [filter_by_window_cons_pos, filter_by_window_nil]

theorem parseTrendFull_fields (s : List Char) (m : TrendMatch)
    (h : parseTrendFull s = some m) :
    ∃ r ns : List Char, m.comparator = some (r.takeWhile isCmpChar) ∧
      r.takeWhile isCmpChar ≠ [] ∧ m.thresholdStr = some ns := by
  unfold parseTrendFull at h
  split at h
  · cases h
  · split at h
    · cases h
    · split at h
      · cases h
      · split at h
        · cases h
        · split at h
          · cases h
            exact ⟨_, _, rfl, by assumption, rfl⟩
          · cases h

theorem parseTrendSimple_fields (s : List Char) (m : TrendMatch)
    (h : parseTrendSimple s = some m) :
    m.comparator = none ∧ m.thresholdStr = none := by
  unfold parseTrendSimple at h
  split at h
  · cases h
  · split at h
    · cases h
    · split at h
      · cases h
        exact ⟨rfl, rfl⟩
      · cases h

/-- C9 counterexample: the comparator group of TREND_PATTERN is the
character class of comparator characters repeated, so the two-character
sequence of two greater-than signs is accepted as a comparator,
contradicting the claim that only the six comparison tokens appear. -/
theorem c9_counterexample :
    parseTrendExpr "t".toList "delta(Cr, 6h) >> 0.3".toList =
      .ok ⟨"t".toList, "delta".toList, "Cr".toList, some ⟨6, 'h'⟩,
        some ['>', '>'], some (3 / 10), "delta(Cr, 6h) >> 0.3".toList⟩ := by
  have h0 : strip "delta(Cr, 6h) >> 0.3".toList = "delta(Cr, 6h) >> 0.3".toList := by
    decide
  have h1 : parseTrendFull "delta(Cr, 6h) >> 0.3".toList =
      some ⟨"delta".toList, "Cr".toList, some "6h".toList, some ['>', '>'],
        some ['0', '.', '3']⟩ := by decide
  have h2 : ratOfNumStr ['0', '.', '3'] = 3 / 10 := by
    have hp : numParts ['0', '.', '3'] = (false, 0, 3, 1) := by decide
    rw [ratOfNumStr, hp]
    norm_num
  have h3 : windowOpt (some "6h".toList) = .ok (some ⟨6, 'h'⟩) := by decide
  simp only [parseTrendExpr, h0, h1, h3, Option.map_some, Option.map]
  rw [h2]

/-- C9 amended: a successfully parsed trend expression either has no
comparator and no threshold, or a comparator that is an arbitrary
nonempty run of the characters less-than, greater-than, equals and bang
together with a numeric threshold; the run is not restricted to the six
comparison tokens. -/
theorem c9_amended (nm e : List Char) (tr : TrendExpr)
    (h : parseTrendExpr nm e = .ok tr) :
    (tr.comparator = none ∧ tr.threshold = none) ∨
    (∃ c : List Char, ∃ q : ℚ, tr.comparator = some c ∧ c ≠ [] ∧
      (∀ ch ∈ c, isCmpChar ch = true) ∧ tr.threshold = some q) := by
  unfold parseTrendExpr at h
  split at h
  · rename_i m heq
    obtain ⟨r, ns, hcmp, hne, hth⟩ := parseTrendFull_fields _ _ heq
    split at h
    · cases h
    · cases h
      right
      exact ⟨r.takeWhile isCmpChar, ratOfNumStr ns, by simp [hcmp], hne,
        fun ch hch => List.mem_takeWhile_imp hch, by simp [hth]⟩
  · split at h
    · split at h
      · cases h
      · cases h
        left
        exact ⟨rfl, rfl⟩
    · cases h

/-- Witness for C9 at a parsed bare trend: its comparator is none. -/
theorem c9_amended_witness :
    (⟨"t".toList, "sma".toList, "HR".toList, none, none, none,
      "sma(HR)".toList⟩ : TrendExpr).comparator = none := by
  rcases c9_amended "t".toList "sma(HR)".toList
      ⟨"t".toList, "sma".toList, "HR".toList, none, none, none,
        "sma(HR)".toList⟩ (by decide) with h | h
  · exact h.1
  · obtain ⟨c, q, hc, _⟩ := h
    exact absurd hc (by simp)

theorem paren_not_word (c : Char) (hp : isParenChar c = true) :
    isWordChar c = false := by
  simp only [isParenChar, Bool.or_eq_true, decide_eq_true_eq] at hp
  rcases hp with rfl | rfl <;> decide

theorem word_not_paren (c : Char) (hw : isWordChar c = true) :
    isParenChar c = false := by
  cases hpc : isParenChar c
  · rfl
  · rw [paren_not_word c hpc] at hw; cases hw

theorem removeParens_cons (c : Char) (cs : List Char) :
    removeParens (c :: cs) =
      if isParenChar c then removeParens cs else c :: removeParens cs := by
  simp only [removeParens, List.filter_cons]
  cases hpc : isParenChar c <;> simp [hpc]

theorem runsAux_cons (acc : List Char) (c : Char) (cs : List Char) :
    runsAux acc (c :: cs) =
      if isWordChar c then runsAux (c :: acc) cs
      else if acc = [] then runsAux [] cs else acc.reverse :: runsAux [] cs := rfl

theorem mergeAux_cons (st : Nat) (c : Char) (cs : List Char) :
    mergeAux st (c :: cs) =
      if isWordChar c then (if st = 2 then true else mergeAux 1 cs)
      else if isParenChar c then mergeAux (if st = 0 then 0 else 2) cs
      else mergeAux 0 cs := rfl

theorem runsAux_removeParens (s : List Char) : ∀ acc : List Char,
    (mergeAux 0 s = false →
      runsAux [] (removeParens s) = runsAux [] s) ∧
    (acc ≠ [] → mergeAux 1 s = false →
      runsAux acc (removeParens s) = runsAux acc s) ∧
    (acc ≠ [] → mergeAux 2 s = false →
      runsAux acc (removeParens s) = acc.reverse :: runsAux [] s) := by
  induction s with
  | nil =>
    intro acc
    refine ⟨fun _ => rfl, fun _ _ => rfl, fun hne _ => ?_⟩
    show runsAux acc [] = acc.reverse :: runsAux [] []
    simp only [runsAux]
    rw [if_neg hne]
    rfl
  | cons c cs ih =>
    intro acc
    by_cases hw : isWordChar c = true
    · have hp : isParenChar c = false := word_not_paren c hw
      have hrp : removeParens (c :: cs) = c :: removeParens cs := by
        rw [removeParens_cons, if_neg (by simp [hp])]
      refine ⟨fun hm => ?_, fun hne hm => ?_, fun hne hm2 => ?_⟩
      · rw [mergeAux_cons, if_pos hw, if_neg (by decide)] at hm
        rw [hrp, runsAux_cons, runsAux_cons, if_pos hw, if_pos hw]
        exact (ih [c]).2.1 (by simp) hm
      · rw [mergeAux_cons, if_pos hw, if_neg (by decide)] at hm
        rw [hrp, runsAux_cons, runsAux_cons, if_pos hw, if_pos hw]
        exact (ih (c :: acc)).2.1 (by simp) hm
      · rw [mergeAux_cons, if_pos hw, if_pos rfl] at hm2
        cases hm2
    · have hw2 : isWordChar c = false := by
        cases hxx : isWordChar c
        · rfl
        · exact absurd hxx hw
      by_cases hpc : isParenChar c = true
      · have hrp : removeParens (c :: cs) = removeParens cs := by
          rw [removeParens_cons, if_pos hpc]
        refine ⟨fun hm => ?_, fun hne hm => ?_, fun hne hm2 => ?_⟩
        · rw [mergeAux_cons, if_neg (by simp [hw2]), if_pos hpc,
            if_pos rfl] at hm
          rw [hrp, runsAux_cons, if_neg (by simp [hw2]), if_pos rfl]
          exact (ih []).1 hm
        · rw [mergeAux_cons, if_neg (by simp [hw2]), if_pos hpc,
            if_neg (by decide)] at hm
          rw [hrp, runsAux_cons, if_neg (by simp [hw2]), if_neg hne]
          exact (ih acc).2.2 hne hm
        · rw [mergeAux_cons, if_neg (by simp [hw2]), if_pos hpc,
            if_neg (by decide)] at hm2
          rw [hrp, runsAux_cons, if_neg (by simp [hw2]), if_pos rfl]
          exact (ih acc).2.2 hne hm2
      · have hpc2 : isParenChar c = false := by
          cases hxx : isParenChar c
          · rfl
          · exact absurd hxx hpc
        have hrp : removeParens (c :: cs) = c :: removeParens cs := by
          rw [removeParens_cons, if_neg (by simp [hpc2])]
        refine ⟨fun hm => ?_, fun hne hm => ?_, fun hne hm2 => ?_⟩
        · rw [mergeAux_cons, if_neg (by simp [hw2]),
            if_neg (by simp [hpc2])] at hm
          have hcs := (ih []).1 hm
          rw [hrp]
          simp [runsAux_cons, hw2, hcs]
        · rw [mergeAux_cons, if_neg (by simp [hw2]),
            if_neg (by simp [hpc2])] at hm
          have hcs := (ih []).1 hm
          rw [hrp]
          simp [runsAux_cons, hw2, hne, hcs]
        · rw [mergeAux_cons, if_neg (by simp [hw2]),
            if_neg (by simp [hpc2])] at hm2
          have hcs := (ih []).1 hm2
          rw [hrp]
          simp [runsAux_cons, hw2, hne, hcs]

/-- C10 amended: extraction of terms and connectives is unchanged by
removing parentheses whenever no parenthesis run lies directly between
two word characters (so removal merges no word runs); in particular the
three example formulas all extract terms A, B, C and connectives AND, OR.
When removal does merge word runs, as in NOT directly followed by a
parenthesized term, extraction differs, and grouping is in any case not
represented in the extracted pair. -/
theorem c10_amended :
    (∀ s : List Char, hasParenMerge s = false →
      parseLogicParts (removeParens s) = parseLogicParts s) ∧
    parseLogicParts "(A AND B) OR C".toList =
      (["A".toList, "B".toList, "C".toList], ["AND".toList, "OR".toList]) ∧
    parseLogicParts "A AND (B OR C)".toList =
      (["A".toList, "B".toList, "C".toList], ["AND".toList, "OR".toList]) ∧
    parseLogicParts "A AND B OR C".toList =
      (["A".toList, "B".toList, "C".toList], ["AND".toList, "OR".toList]) := by
  refine ⟨fun s hm => ?_, by decide, by decide, by decide⟩
  unfold parseLogicParts wordRuns
  rw [(runsAux_removeParens s []).1 hm]

/-- Witness for C10 at the first example formula. -/
theorem c10_amended_witness :
    parseLogicParts (removeParens "(A AND B) OR C".toList) =
      parseLogicParts "(A AND B) OR C".toList :=
  c10_amended.1 _ (by decide)

end PSDL
